import Mathlib

/-!
Verification of the rotate-puts pipeline (src/main.rs).

The consumer thread (main.rs lines 77-139) is embedded as a state machine
over `ConsState`; the line-aware buffer split (lines 106-127) as
`splitBuffer`, driven by the last-newline scan of lines 109-112; file
naming and retention eviction (lines 178-195) as `generate_file_name` /
`make_new_file_name` over a filesystem modelled as a list of paths; the
ingestion loop (lines 143-174) as `produce` over a trace of read results.
Bytes are `Nat`; the `\n` byte is `10`.  Wall-clock time is abstracted:
a timeout event carries the Boolean value of the elapsed-time test of
lines 90-93 (`duration_since(last_write_time) >= 1000ms`, `false` on a
clock error).
-/

namespace RotatePuts

abbrev Byte := Nat

/-- Lines 109-112: iterate over the buffer with indices, remembering the
index of every `\n` seen; the final value is the index of the last `\n`,
or `none` when the buffer holds no newline. -/
def lastNLAux : List Byte → Nat → Option Nat → Option Nat
  | [], _, acc => acc
  | c :: rest, i, acc => lastNLAux rest (i + 1) (if c == 10 then some i else acc)

/-- `pos_of_n` of lines 109-112, computed over the whole buffer. -/
def lastNewlinePos (l : List Byte) : Option Nat := lastNLAux l 0 none

/-- Structural reformulation of the last-newline scan, used in proofs. -/
def lastIdxOf10 : List Byte → Option Nat
  | [] => none
  | c :: rest =>
    match lastIdxOf10 rest with
    | some p => some (p + 1)
    | none => if c == 10 then some 0 else none

/-- Line 108: emit when the buffer exceeds 4 KiB or contains a `\n`
(`write_buffer.len() > 4 * 1024 || contains_new_line`). -/
def shouldEmit (buf : List Byte) : Bool :=
  decide (buf.length > 4 * 1024) || buf.any (fun c => c == 10)

/-- Lines 113-125: on emission, split the buffer at the last newline.
`none`: the whole buffer is emitted and cleared.  `some p`: the prefix
through index `p` is emitted (`split_off(pos + 1)`), the rest retained. -/
def splitBuffer (buf : List Byte) : List Byte × List Byte :=
  match lastNewlinePos buf with
  | none => (buf, [])
  | some p => (buf.take (p + 1), buf.drop (p + 1))

/-- Consumer-side state of lines 78-86: the already-rotated files (in
creation order), the bytes written to the currently open file, the
`written_len` counter, the accumulation buffer, and the `file_index`
value (the next sequence index a rotation would create). -/
structure ConsState where
  closedFiles : List (List Byte)
  curFile : List Byte
  writtenLen : Nat
  buffer : List Byte
  fileIndex : Int
  deriving Repr, DecidableEq

/-- A message received by the consumer: a timeout of `recv_timeout`
(carrying the Boolean elapsed-time test of lines 90-93) or a chunk sent
by the producer.  The zero-length chunk is the end-of-stream sentinel. -/
inductive Event where
  | timeout (elapsedOk : Bool)
  | chunk (bytes : List Byte)
  deriving Repr, DecidableEq

/-- State after lines 78-86: index 0 was created for the first file, so
`file_index` is 1; nothing written, empty buffer. -/
def initState : ConsState :=
  { closedFiles := [], curFile := [], writtenLen := 0, buffer := [], fileIndex := 1 }

/-- One iteration of the consumer loop, lines 87-137, for a timeout or a
non-sentinel chunk (the sentinel is handled by `consume`).  The timeout
branch (89-99) flushes the buffer when the elapsed-time test holds and
the buffer is non-empty; it performs no rotation check.  The chunk
branch (106-135) appends the chunk, emits per `splitBuffer` when
`shouldEmit` holds, and rotates when `written_len >= file_size`. -/
def step (fileSize : Nat) (s : ConsState) (e : Event) : ConsState :=
  match e with
  | .timeout ok =>
    if ok && !s.buffer.isEmpty then
      { s with curFile := s.curFile ++ s.buffer,
               writtenLen := s.writtenLen + s.buffer.length,
               buffer := [] }
    else s
  | .chunk b =>
    let buf := s.buffer ++ b
    if shouldEmit buf then
      let emitted := (splitBuffer buf).1
      let retained := (splitBuffer buf).2
      let wl := s.writtenLen + emitted.length
      if wl ≥ fileSize then
        { closedFiles := s.closedFiles ++ [s.curFile ++ emitted],
          curFile := [], writtenLen := 0, buffer := retained,
          fileIndex := s.fileIndex + 1 }
      else
        { s with curFile := s.curFile ++ emitted, writtenLen := wl,
                 buffer := retained }
    else { s with buffer := buf }

/-- Run the consumer over a list of non-sentinel events. -/
def run (fileSize : Nat) (s : ConsState) (events : List Event) : ConsState :=
  events.foldl (step fileSize) s

/-- Lines 100-105: on the sentinel the remaining buffer is written to the
current file and the process exits with status 0. -/
def finalizeFiles (s : ConsState) : List (List Byte) :=
  s.closedFiles ++ [s.curFile ++ s.buffer]

/-- The consumer loop driven to termination: `none` when the event list
is exhausted without a sentinel (the loop would still be running); on
the first sentinel, the on-disk files and the exit status 0. -/
def consume (fileSize : Nat) (s : ConsState) :
    List Event → Option (List (List Byte) × Nat)
  | [] => none
  | Event.timeout ok :: rest => consume fileSize (step fileSize s (.timeout ok)) rest
  | Event.chunk [] :: _ => some (finalizeFiles s, 0)
  | Event.chunk (c :: cs) :: rest =>
      consume fileSize (step fileSize s (.chunk (c :: cs))) rest

/-- All bytes the consumer has accepted, wherever they now live. -/
def totalBytes (s : ConsState) : List Byte :=
  s.closedFiles.flatten ++ s.curFile ++ s.buffer

/-- Bytes handed to the file writer so far, in sequence-index order. -/
def writtenBytes (s : ConsState) : List Byte :=
  s.closedFiles.flatten ++ s.curFile

def eventBytes : Event → List Byte
  | .chunk b => b
  | .timeout _ => []

/-- The input byte stream carried by a list of events. -/
def inputBytes (events : List Event) : List Byte :=
  (events.map eventBytes).flatten

/-- Rust's `{:03}` formatting of a signed integer (line 194): decimal
digits zero-padded to a minimum width of 3, the sign counted toward the
width and the padding inserted after the sign. -/
def fmt03 (n : Int) : String :=
  let digits := toString n.natAbs
  let sign := if n < 0 then "-" else ""
  let pad :=
    if sign.length + digits.length < 3 then
      String.mk (List.replicate (3 - (sign.length + digits.length)) '0')
    else ""
  sign ++ pad ++ digits

/-- Lines 193-195: `format!("{}_{:03}{}{}", prefix, index,
iff!(suffix.is_empty(), "", "."), suffix)`. -/
def generate_file_name (pre sfx : String) (index : Int) : String :=
  pre ++ "_" ++ fmt03 index ++ (if sfx.isEmpty then "" else ".") ++ sfx

/-- Lines 178-191 over a filesystem modelled as the list of existing
paths: read the index, bump it, compute the eviction target
`index - file_count`, delete it when present (lines 183-186), and
return the new file's name.  Result: (new file name, new index value,
filesystem after eviction). -/
def make_new_file_name (pre sfx : String) (file_count : Int) (index : Int)
    (fsys : List String) : String × Int × List String :=
  let i := index
  let index2 := i + 1
  let pending_rm := generate_file_name pre sfx (i - file_count)
  let fsys2 :=
    if pending_rm ∈ fsys then fsys.filter (fun q => q != pending_rm) else fsys
  (generate_file_name pre sfx i, index2, fsys2)

/-- Line 37: `util_size::parse_size(file_size).unwrap_or_else(|_| 10 * 1024 * 1028)`.
The constant the code falls back to on a parse failure, transcribed as
written in the source. -/
def file_size_fallback : Nat := 10 * 1024 * 1028

/-- Line 37 as a whole: the parse result when the external size parser
succeeds, the fallback constant when it fails. -/
def resolve_file_size (parsed : Option Nat) : Nat :=
  parsed.getD file_size_fallback

/-- One result of `read_in.read(&mut buff)` in the ingestion loop
(lines 154-173): a read of at least one byte (`data c cs` carries the
bytes `c :: cs`, non-empty since the zero-length case is matched
first), a zero-length read (`eof`), or a read error (logged, loop
continues). -/
inductive ReadEvent where
  | data (c : Byte) (cs : List Byte)
  | eof
  | readErr
  deriving Repr, DecidableEq, BEq

/-- The ingestion loop of lines 143-174 applied to a finite trace of
read results.  A data read is forwarded as a chunk.  On a zero-length
read: with continue-read the source is reopened and reading goes on
(no message); without it the empty sentinel is sent — and the loop
body then simply continues, there is no break.  Read errors are
logged and skipped.  The output is the list of messages sent. -/
def produce (continueRead : Bool) : List ReadEvent → List (List Byte)
  | [] => []
  | ReadEvent.data c cs :: rest => (c :: cs) :: produce continueRead rest
  | ReadEvent.eof :: rest =>
      if continueRead then produce continueRead rest
      else [] :: produce continueRead rest
  | ReadEvent.readErr :: rest => produce continueRead rest

/-- `step`, with file creation allowed to fail: `ok i` tells whether the
file for sequence index `i` can be created.  A rotation whose
`File::create` fails hits the `expect` of lines 132-133; the error
carries the failing index (the created path is
`generate_file_name pre sfx i`). -/
def stepE (fileSize : Nat) (ok : Int → Bool) (s : ConsState) (e : Event) :
    Except Int ConsState :=
  match e with
  | .timeout t =>
    Except.ok (if t && !s.buffer.isEmpty then
      { s with curFile := s.curFile ++ s.buffer,
               writtenLen := s.writtenLen + s.buffer.length,
               buffer := [] }
    else s)
  | .chunk b =>
    let buf := s.buffer ++ b
    if shouldEmit buf then
      let emitted := (splitBuffer buf).1
      let retained := (splitBuffer buf).2
      let wl := s.writtenLen + emitted.length
      if wl ≥ fileSize then
        if ok s.fileIndex then
          Except.ok { closedFiles := s.closedFiles ++ [s.curFile ++ emitted],
                      curFile := [], writtenLen := 0, buffer := retained,
                      fileIndex := s.fileIndex + 1 }
        else Except.error s.fileIndex
      else
        Except.ok { s with curFile := s.curFile ++ emitted, writtenLen := wl,
                           buffer := retained }
    else Except.ok { s with buffer := buf }

/-- Run the fallible consumer; a failed file creation stops it at once
(the `expect` panic ends the consumer thread). -/
def runE (fileSize : Nat) (ok : Int → Bool) (s : ConsState) :
    List Event → Except Int ConsState
  | [] => Except.ok s
  | e :: rest =>
    match stepE fileSize ok s e with
    | Except.error i => Except.error i
    | Except.ok s2 => runE fileSize ok s2 rest

/-- The consumer thread from its start (lines 78-86): creating the
initial file (index 0, lines 81-83) may already fail. -/
def pipelineE (fileSize : Nat) (ok : Int → Bool) (events : List Event) :
    Except Int ConsState :=
  if ok 0 then runE fileSize ok initState events else Except.error 0

/-! Lemmas about the last-newline scan. -/

lemma lastNLAux_eq (l : List Byte) : ∀ (i : Nat) (acc : Option Nat),
    lastNLAux l i acc =
      (match lastIdxOf10 l with
       | some p => some (i + p)
       | none => acc) := by
  induction l with
  | nil => intro i acc; rfl
  | cons c rest ih =>
    intro i acc
    simp only [lastNLAux, lastIdxOf10]
    rw [ih (i + 1) (if c == 10 then some i else acc)]
    cases h : lastIdxOf10 rest with
    | some p =>
      simp only [h]
      exact congrArg some (by omega)
    | none =>
      simp only [h]
      cases hc : (c == 10) <;> simp

lemma lastNewlinePos_eq (l : List Byte) : lastNewlinePos l = lastIdxOf10 l := by
  unfold lastNewlinePos
  rw [lastNLAux_eq]
  cases h : lastIdxOf10 l <;> simp

lemma lastIdxOf10_eq_none (l : List Byte) :
    lastIdxOf10 l = none ↔ l.any (fun c => c == 10) = false := by
  induction l with
  | nil => simp [lastIdxOf10]
  | cons c rest ih =>
    simp only [lastIdxOf10, List.any_cons]
    cases h : lastIdxOf10 rest with
    | some p =>
      simp only [h]
      constructor
      · intro hx; exact absurd hx (by simp)
      · intro hx
        have : rest.any (fun c => c == 10) = false := by
          rcases Bool.or_eq_false_iff.mp hx with ⟨_, h2⟩
          exact h2
        rw [← ih] at this
        rw [h] at this
        exact absurd this (by simp)
    | none =>
      simp only [h]
      have hrest : rest.any (fun c => c == 10) = false := (ih).mp h
      cases hc : (c == 10) <;> simp [hrest]

lemma any10_false_get (l : List Byte)
    (h : l.any (fun c => c == 10) = false) (j : Nat) : l.get? j ≠ some 10 := by
  intro hg
  have hm : (10 : Byte) ∈ l := List.get?_mem hg
  have : l.any (fun c => c == 10) = true := List.any_eq_true.mpr ⟨10, hm, by simp⟩
  rw [h] at this
  exact absurd this (by simp)

lemma lastIdxOf10_get (l : List Byte) : ∀ (p : Nat),
    lastIdxOf10 l = some p → l.get? p = some 10 := by
  induction l with
  | nil => intro p h; exact absurd h (by simp [lastIdxOf10])
  | cons c rest ih =>
    intro p h
    simp only [lastIdxOf10] at h
    cases h2 : lastIdxOf10 rest with
    | some q =>
      rw [h2] at h
      have hp : p = q + 1 := by
        have := Option.some.inj h; omega
      subst hp
      simpa using ih q h2
    | none =>
      rw [h2] at h
      cases hc : (c == 10) with
      | false => rw [hc] at h; exact absurd h (by simp)
      | true =>
        rw [hc] at h
        have hp : p = 0 := by
          have := Option.some.inj h; omega
        subst hp
        have : c = 10 := by simpa using hc
        simp [this]

lemma lastIdxOf10_last (l : List Byte) : ∀ (p : Nat),
    lastIdxOf10 l = some p → ∀ j, p < j → l.get? j ≠ some 10 := by
  induction l with
  | nil => intro p h; exact absurd h (by simp [lastIdxOf10])
  | cons c rest ih =>
    intro p h j hj
    simp only [lastIdxOf10] at h
    cases h2 : lastIdxOf10 rest with
    | some q =>
      rw [h2] at h
      have hp : p = q + 1 := by
        have := Option.some.inj h; omega
      subst hp
      match j, hj with
      | j' + 1, hj =>
        simpa using ih q h2 j' (by omega)
    | none =>
      rw [h2] at h
      have hrest : rest.any (fun c => c == 10) = false :=
        (lastIdxOf10_eq_none rest).mp h2
      match j, hj with
      | j' + 1, _ =>
        simpa using any10_false_get rest hrest j'

/-! Lemmas about the buffer split. -/

lemma splitBuffer_fst_append_snd (l : List Byte) :
    (splitBuffer l).1 ++ (splitBuffer l).2 = l := by
  unfold splitBuffer
  cases lastNewlinePos l <;> simp

lemma splitBuffer_of_no_nl (l : List Byte)
    (h : l.any (fun c => c == 10) = false) : splitBuffer l = (l, []) := by
  unfold splitBuffer
  rw [lastNewlinePos_eq, (lastIdxOf10_eq_none l).mpr h]

lemma splitBuffer_of_some (l : List Byte) (p : Nat)
    (h : lastNewlinePos l = some p) :
    splitBuffer l = (l.take (p + 1), l.drop (p + 1)) := by
  unfold splitBuffer
  rw [h]

/-! Byte conservation through the consumer loop. -/

lemma totalBytes_step (fileSize : Nat) (s : ConsState) (e : Event) :
    totalBytes (step fileSize s e) = totalBytes s ++ eventBytes e := by
  cases e with
  | timeout ok =>
    simp only [step, eventBytes]
    by_cases h : (ok && !s.buffer.isEmpty) = true
    · simp [h, totalBytes, List.append_assoc]
    · simp [h, totalBytes]
  | chunk b =>
    simp only [step, eventBytes]
    by_cases h : shouldEmit (s.buffer ++ b) = true
    · simp only [h, if_true]
      by_cases h2 :
          s.writtenLen + (splitBuffer (s.buffer ++ b)).1.length ≥ fileSize
      · simp only [h2, ge_iff_le, if_true]
        simp [totalBytes, List.append_assoc, splitBuffer_fst_append_snd]
      · simp only [h2, ge_iff_le, if_false]
        simp [totalBytes, List.append_assoc, splitBuffer_fst_append_snd]
    · simp [h, totalBytes, List.append_assoc]

lemma totalBytes_run (fileSize : Nat) : ∀ (events : List Event) (s : ConsState),
    totalBytes (run fileSize s events) = totalBytes s ++ inputBytes events := by
  intro events
  induction events with
  | nil => intro s; simp [run, inputBytes]
  | cons e rest ih =>
    intro s
    simp only [run, List.foldl_cons] at *
    rw [ih (step fileSize s e), totalBytes_step]
    simp [inputBytes, List.append_assoc]

lemma finalizeFiles_flatten (s : ConsState) :
    (finalizeFiles s).flatten = totalBytes s := by
  simp [finalizeFiles, totalBytes, List.append_assoc]

/-! The consumer loop terminates exactly at the first sentinel. -/

lemma consume_no_sentinel (fileSize : Nat) : ∀ (events : List Event) (s : ConsState),
    Event.chunk [] ∉ events → consume fileSize s events = none := by
  intro events
  induction events with
  | nil => intro s _; rfl
  | cons e rest ih =>
    intro s h
    have h2 : Event.chunk [] ∉ rest := fun hm => h (List.mem_cons_of_mem _ hm)
    cases e with
    | timeout ok => simpa [consume] using ih _ h2
    | chunk b =>
      cases b with
      | nil => exact absurd (List.mem_cons_self _ _) h
      | cons c cs => simpa [consume] using ih _ h2

lemma consume_first_sentinel (fileSize : Nat) :
    ∀ (pre : List Event) (s : ConsState) (post : List Event),
      Event.chunk [] ∉ pre →
      consume fileSize s (pre ++ Event.chunk [] :: post) =
        some (finalizeFiles (run fileSize s pre), 0) := by
  intro pre
  induction pre with
  | nil => intro s post _; simp [consume, run]
  | cons e rest ih =>
    intro s post h
    have h2 : Event.chunk [] ∉ rest := fun hm => h (List.mem_cons_of_mem _ hm)
    cases e with
    | timeout ok =>
      simpa [consume, run] using ih (step fileSize s (.timeout ok)) post h2
    | chunk b =>
      cases b with
      | nil => exact absurd (List.mem_cons_self _ _) h
      | cons c cs =>
        simpa [consume, run] using ih (step fileSize s (.chunk (c :: cs))) post h2

/-! Eviction over the filesystem model. -/

lemma filter_bne_eq_self (target : String) (fsys : List String)
    (h : target ∉ fsys) : fsys.filter (fun q => q != target) = fsys := by
  apply List.filter_eq_self.mpr
  intro q hq
  have : q ≠ target := fun he => h (he ▸ hq)
  simpa using this

lemma make_new_file_name_fsys (pre sfx : String) (file_count index : Int)
    (fsys : List String) :
    (make_new_file_name pre sfx file_count index fsys).2.2 =
      fsys.filter (fun q => q != generate_file_name pre sfx (index - file_count)) := by
  simp only [make_new_file_name]
  by_cases h : generate_file_name pre sfx (index - file_count) ∈ fsys
  · simp [h]
  · simp [h, filter_bne_eq_self _ _ h]

lemma target_not_mem_after_evict (pre sfx : String) (file_count index : Int)
    (fsys : List String) :
    generate_file_name pre sfx (index - file_count) ∉
      (make_new_file_name pre sfx file_count index fsys).2.2 := by
  rw [make_new_file_name_fsys]
  intro hm
  have := List.of_mem_filter hm
  simp at this

/-- Claim C1: for every finite input stream, delivered as non-sentinel
chunks possibly interleaved with timeouts and ending in the zero-length
sentinel, the consumer terminates with exit status 0 and the
concatenation of the bytes of all output files, in sequence-index
order, equals the input byte stream exactly — no byte lost, none
duplicated (writes assumed reliable, as the model's writes are). -/
theorem C1_byte_stream_preserved (fileSize : Nat) (events : List Event)
    (h : Event.chunk [] ∉ events) :
    consume fileSize initState (events ++ [Event.chunk []]) =
      some (finalizeFiles (run fileSize initState events), 0) ∧
    (finalizeFiles (run fileSize initState events)).flatten = inputBytes events := by
  constructor
  · exact consume_first_sentinel fileSize events initState [] h
  · rw [finalizeFiles_flatten, totalBytes_run]
    simp [totalBytes, initState]

theorem C1_witness :
    Event.chunk [] ∉ [Event.chunk [65, 10], Event.timeout true, Event.chunk [66]] ∧
    (consume 1 initState
        ([Event.chunk [65, 10], Event.timeout true, Event.chunk [66]] ++
          [Event.chunk []]) =
      some (finalizeFiles (run 1 initState
        [Event.chunk [65, 10], Event.timeout true, Event.chunk [66]]), 0) ∧
    (finalizeFiles (run 1 initState
        [Event.chunk [65, 10], Event.timeout true, Event.chunk [66]])).flatten =
      inputBytes [Event.chunk [65, 10], Event.timeout true, Event.chunk [66]]) :=
  ⟨by decide, C1_byte_stream_preserved 1 _ (by decide)⟩

/-- Claim C2: appending a non-empty chunk triggers emission exactly when
the buffer exceeds 4 KiB or contains a newline byte; on trigger with a
newline at last position `p` the prefix through `p` is emitted and the
rest retained (emitted ++ retained = buffer); on trigger without a
newline the whole buffer is emitted and cleared; without a trigger
nothing is emitted and the whole buffer is retained. -/
theorem C2_line_aware_buffer (fileSize : Nat) (s : ConsState) (b : List Byte)
    (hb : b ≠ []) :
    (shouldEmit (s.buffer ++ b) = true ↔
      4 * 1024 < (s.buffer ++ b).length ∨ (10 : Byte) ∈ s.buffer ++ b) ∧
    (shouldEmit (s.buffer ++ b) = false →
      step fileSize s (.chunk b) = { s with buffer := s.buffer ++ b }) ∧
    (shouldEmit (s.buffer ++ b) = true →
      (splitBuffer (s.buffer ++ b)).1 ≠ [] ∧
      (splitBuffer (s.buffer ++ b)).1 ++ (splitBuffer (s.buffer ++ b)).2 =
        s.buffer ++ b ∧
      writtenBytes (step fileSize s (.chunk b)) =
        writtenBytes s ++ (splitBuffer (s.buffer ++ b)).1 ∧
      (step fileSize s (.chunk b)).buffer = (splitBuffer (s.buffer ++ b)).2) ∧
    ((s.buffer ++ b).any (fun c => c == 10) = false →
      splitBuffer (s.buffer ++ b) = (s.buffer ++ b, [])) ∧
    (∀ p, lastNewlinePos (s.buffer ++ b) = some p →
      (s.buffer ++ b).get? p = some 10 ∧
      (∀ j, p < j → (s.buffer ++ b).get? j ≠ some 10) ∧
      splitBuffer (s.buffer ++ b) =
        ((s.buffer ++ b).take (p + 1), (s.buffer ++ b).drop (p + 1))) := by
  have hbne : s.buffer ++ b ≠ [] := by
    intro he
    exact hb (List.append_eq_nil.mp he).2
  refine ⟨?_, ?_, ?_, ?_, ?_⟩
  · simp [shouldEmit, List.any_eq_true, beq_iff_eq]
  · intro h
    simp [step, h]
  · intro h
    refine ⟨?_, splitBuffer_fst_append_snd _, ?_, ?_⟩
    · cases hn : lastNewlinePos (s.buffer ++ b) with
      | none =>
        have hno : (s.buffer ++ b).any (fun c => c == 10) = false := by
          rw [lastNewlinePos_eq] at hn
          exact (lastIdxOf10_eq_none _).mp hn
        rw [splitBuffer_of_no_nl _ hno]
        exact hbne
      | some p =>
        rw [splitBuffer_of_some _ p hn]
        have hget : (s.buffer ++ b).get? p = some 10 :=
          lastIdxOf10_get _ p (by rw [← lastNewlinePos_eq]; exact hn)
        have hlt : p < (s.buffer ++ b).length := by
          by_contra hge
          rw [List.get?_eq_none.mpr (by omega)] at hget
          exact absurd hget (by simp)
        intro he
        rcases List.take_eq_nil_iff.mp he with h1 | h1
        · omega
        · exact hbne h1
    · simp only [step, h, if_true]
      by_cases h2 :
          s.writtenLen + (splitBuffer (s.buffer ++ b)).1.length ≥ fileSize
      · simp [h2, writtenBytes, List.append_assoc]
      · simp [h2, writtenBytes, List.append_assoc]
    · simp only [step, h, if_true]
      by_cases h2 :
          s.writtenLen + (splitBuffer (s.buffer ++ b)).1.length ≥ fileSize
      · simp [h2]
      · simp [h2]
  · intro h
    exact splitBuffer_of_no_nl _ h
  · intro p hp
    refine ⟨lastIdxOf10_get _ p (by rw [← lastNewlinePos_eq]; exact hp), ?_, ?_⟩
    · exact lastIdxOf10_last _ p (by rw [← lastNewlinePos_eq]; exact hp)
    · exact splitBuffer_of_some _ p hp

theorem C2_witness :
    ([65, 10] : List Byte) ≠ [] ∧
    ((shouldEmit (initState.buffer ++ [65, 10]) = true ↔
      4 * 1024 < (initState.buffer ++ [65, 10]).length ∨
        (10 : Byte) ∈ initState.buffer ++ [65, 10]) ∧
    (shouldEmit (initState.buffer ++ [65, 10]) = false →
      step 100 initState (.chunk [65, 10]) =
        { initState with buffer := initState.buffer ++ [65, 10] }) ∧
    (shouldEmit (initState.buffer ++ [65, 10]) = true →
      (splitBuffer (initState.buffer ++ [65, 10])).1 ≠ [] ∧
      (splitBuffer (initState.buffer ++ [65, 10])).1 ++
          (splitBuffer (initState.buffer ++ [65, 10])).2 =
        initState.buffer ++ [65, 10] ∧
      writtenBytes (step 100 initState (.chunk [65, 10])) =
        writtenBytes initState ++ (splitBuffer (initState.buffer ++ [65, 10])).1 ∧
      (step 100 initState (.chunk [65, 10])).buffer =
        (splitBuffer (initState.buffer ++ [65, 10])).2) ∧
    ((initState.buffer ++ [65, 10]).any (fun c => c == 10) = false →
      splitBuffer (initState.buffer ++ [65, 10]) =
        (initState.buffer ++ [65, 10], [])) ∧
    (∀ p, lastNewlinePos (initState.buffer ++ [65, 10]) = some p →
      (initState.buffer ++ [65, 10]).get? p = some 10 ∧
      (∀ j, p < j → (initState.buffer ++ [65, 10]).get? j ≠ some 10) ∧
      splitBuffer (initState.buffer ++ [65, 10]) =
        ((initState.buffer ++ [65, 10]).take (p + 1),
          (initState.buffer ++ [65, 10]).drop (p + 1)))) :=
  ⟨by decide, C2_line_aware_buffer 100 initState [65, 10] (by decide)⟩

/-- Claim C3 is false on the code: the timeout branch (lines 89-99)
increments `written_len` and writes without ever checking rotation.
With threshold 1 and one-byte chunks flushed by timeouts, the first
timeout flush brings the counter to the threshold (state `s2`:
`writtenLen = 1 ≥ 1`), yet no rotation happens and the same file keeps
receiving bytes: after two more chunk/timeout pairs the still-unrotated
file holds 3 bytes, exceeding threshold (1) plus the largest single
write (1 byte). -/
theorem C3_counterexample :
    (run 1 initState [Event.chunk [65], Event.timeout true]).writtenLen = 1 ∧
    (run 1 initState [Event.chunk [65], Event.timeout true]).closedFiles = [] ∧
    (run 1 initState [Event.chunk [65], Event.timeout true]).curFile = [65] ∧
    (run 1 initState [Event.chunk [65], Event.timeout true, Event.chunk [66],
        Event.timeout true, Event.chunk [67], Event.timeout true]).closedFiles
      = [] ∧
    (run 1 initState [Event.chunk [65], Event.timeout true, Event.chunk [66],
        Event.timeout true, Event.chunk [67], Event.timeout true]).curFile
      = [65, 66, 67] ∧
    1 + 1 < ([65, 66, 67] : List Byte).length := by
  decide

/-- Claim C3 amended: the rotation check runs only in the
chunk-processing branch — after any chunk-triggered emission the byte
counter is strictly below the threshold (rotation resets it before
further bytes can reach the file); timeout-driven flushes never rotate
(closed files and the sequence index are untouched), so bytes flushed
on timeouts can drive one file past the threshold without bound. -/
theorem C3_amended (fileSize : Nat) (s : ConsState) (b : List Byte)
    (hfs : 0 < fileSize) (htrig : shouldEmit (s.buffer ++ b) = true) :
    (step fileSize s (.chunk b)).writtenLen < fileSize ∧
    ∀ ok, (step fileSize s (.timeout ok)).closedFiles = s.closedFiles ∧
      (step fileSize s (.timeout ok)).fileIndex = s.fileIndex := by
  constructor
  · simp only [step, htrig, if_true]
    by_cases h2 :
        s.writtenLen + (splitBuffer (s.buffer ++ b)).1.length ≥ fileSize
    · simpa [h2] using hfs
    · simpa [h2] using by omega
  · intro ok
    simp only [step]
    by_cases h : (ok && !s.buffer.isEmpty) = true
    · simp [h]
    · simp [h]

theorem C3_amended_witness :
    0 < 1 ∧ shouldEmit (initState.buffer ++ [10]) = true ∧
    ((step 1 initState (.chunk [10])).writtenLen < 1 ∧
    ∀ ok, (step 1 initState (.timeout ok)).closedFiles = initState.closedFiles ∧
      (step 1 initState (.timeout ok)).fileIndex = initState.fileIndex) :=
  ⟨by decide, by decide, C3_amended 1 initState [10] (by decide) (by decide)⟩

/-- Claim C5: the consumer terminates exactly at the first zero-length
sentinel (lines 100-105): the whole remaining accumulation buffer is
written to the current file, the output is the rotated files followed
by that final file, and the exit status is 0; an event stream without a
sentinel never terminates the consumer, so this is the sole normal
termination path. -/
theorem C5_sentinel_finalize (fileSize : Nat) (pre post : List Event)
    (s : ConsState) (h : Event.chunk [] ∉ pre) :
    consume fileSize s (pre ++ Event.chunk [] :: post) =
      some (finalizeFiles (run fileSize s pre), 0) ∧
    finalizeFiles (run fileSize s pre) =
      (run fileSize s pre).closedFiles ++
        [(run fileSize s pre).curFile ++ (run fileSize s pre).buffer] ∧
    ∀ events, Event.chunk [] ∉ events → consume fileSize s events = none := by
  refine ⟨consume_first_sentinel fileSize pre s post h, rfl, ?_⟩
  intro events he
  exact consume_no_sentinel fileSize events s he

theorem C5_witness :
    Event.chunk [] ∉ [Event.chunk [65]] ∧
    (consume 5 initState ([Event.chunk [65]] ++ Event.chunk [] :: [Event.timeout true]) =
      some (finalizeFiles (run 5 initState [Event.chunk [65]]), 0) ∧
    finalizeFiles (run 5 initState [Event.chunk [65]]) =
      (run 5 initState [Event.chunk [65]]).closedFiles ++
        [(run 5 initState [Event.chunk [65]]).curFile ++
          (run 5 initState [Event.chunk [65]]).buffer] ∧
    ∀ events, Event.chunk [] ∉ events → consume 5 initState events = none) :=
  ⟨by decide, C5_sentinel_finalize 5 [Event.chunk [65]] [Event.timeout true]
    initState (by decide)⟩

/-- Claim C7: on a receive timeout, when the elapsed-time test holds and
the accumulation buffer is non-empty, the entire buffer is written to
the current file regardless of line boundaries and the buffer is left
empty (the byte counter grows by the buffer's length); on a timeout
with an empty buffer nothing happens and the state is unchanged. -/
theorem C7_timeout_flush (fileSize : Nat) (s : ConsState) (ok : Bool) :
    (ok = true → s.buffer ≠ [] →
      step fileSize s (.timeout ok) =
        { s with curFile := s.curFile ++ s.buffer,
                 writtenLen := s.writtenLen + s.buffer.length,
                 buffer := [] }) ∧
    (s.buffer = [] → step fileSize s (.timeout ok) = s) := by
  constructor
  · intro hok hne
    have hb : s.buffer.isEmpty = false := by
      cases hbuf : s.buffer with
      | nil => exact absurd hbuf hne
      | cons c cs => rfl
    simp [step, hok, hb]
  · intro hemp
    simp [step, hemp]

theorem C7_witness :
    (true = true → ([65] : List Byte) ≠ [] →
      step 5 (ConsState.mk [] [66] 1 [65] 1) (.timeout true) =
        ConsState.mk [] ([66] ++ [65]) (1 + 1) [] 1) ∧
    (initState.buffer = [] → step 5 initState (.timeout true) = initState) :=
  ⟨fun _ _ => by
      have := (C7_timeout_flush 5 (ConsState.mk [] [66] 1 [65] 1) true).1
        rfl (by decide)
      simpa using this,
   fun _ => (C7_timeout_flush 5 initState true).2 rfl⟩

/-- Claim C4 concerns a code bug.  The `expect` calls of lines 81-83 and
131-133 run inside the consumer thread spawned at line 77; a panic
there ends only that thread, not the process.  The theorem evaluates
the code at the failing inputs: the consumer aborts when the initial
file (index 0) cannot be created, and likewise when a rotated file
(here index 1) cannot be created — while the ingestion loop's output
is a function of the read trace alone (lines 155-173 only log a failed
send and continue), so it keeps consuming and forwarding input that no
consumer will ever write. -/
theorem C4_create_failure_consumer_dies :
    pipelineE 5 (fun _ => false) [Event.chunk [65]] = Except.error 0 ∧
    runE 7 (fun i => decide (i = 0)) (ConsState.mk [] [70] 7 [] 1)
      [Event.chunk [66, 10], Event.chunk [67]] = Except.error 1 ∧
    produce false [ReadEvent.data 65 [], ReadEvent.data 66 [], ReadEvent.eof] =
      [[65], [66], []] :=
  ⟨rfl, rfl, rfl⟩

/-- Claim C6 is false on the code: the inner read loop of lines 155-173
has no break — after forwarding the sentinel it reads again, and every
further zero-length read forwards another sentinel.  Two consecutive
zero-length reads yield two sentinels, and the loop even keeps
forwarding data read after the first sentinel. -/
theorem C6_counterexample :
    produce false [ReadEvent.eof, ReadEvent.eof] = [[], []] ∧
    (produce false [ReadEvent.eof, ReadEvent.eof]).count [] = 2 ∧
    produce false [ReadEvent.eof, ReadEvent.data 65 []] = [[], [65]] := by
  decide

/-- Claim C6 amended: with continue-read disabled the ingestion loop
forwards one sentinel per zero-length read and keeps reading — it
never stops by itself (each end-of-source read re-enters the loop, and
exactly-once delivery in practice rests on the consumer exiting the
process at the first sentinel). -/
theorem C6_amended (t1 t2 : List ReadEvent) :
    produce false (t1 ++ ReadEvent.eof :: t2) =
      produce false t1 ++ [] :: produce false t2 ∧
    ∀ t : List ReadEvent, (produce false t).count [] = t.count ReadEvent.eof := by
  constructor
  · induction t1 with
    | nil => simp [produce]
    | cons e rest ih =>
      cases e with
      | data c cs => simpa [produce] using ih
      | eof => simpa [produce] using ih
      | readErr => simpa [produce] using ih
  · intro t
    induction t with
    | nil => rfl
    | cons e rest ih =>
      cases e with
      | data c cs =>
        simp only [produce, List.count_cons, ih]
        have hne : (ReadEvent.data c cs == ReadEvent.eof) = false := rfl
        have hne2 : (([] : List Byte) == c :: cs) = false := rfl
        simp [hne, hne2]
      | eof =>
        simp only [produce, List.count_cons, ih]
        have he : (ReadEvent.eof == ReadEvent.eof) = true := rfl
        simp [he]
        exact ih
      | readErr =>
        simp only [produce, List.count_cons, ih]
        have hne : (ReadEvent.readErr == ReadEvent.eof) = false := rfl
        simp [hne]

/-- Claim C8: creating the file for sequence index `i` first computes
the path for `i - file_count` and removes it from the filesystem when
present; when absent the filesystem is untouched and no error arises;
in both cases the new file's name is the one for index `i` and the
index cell is advanced to `i + 1`. -/
theorem C8_retention_eviction (pre sfx : String) (file_count i : Int)
    (fsys : List String) :
    (make_new_file_name pre sfx file_count i fsys).1 =
      generate_file_name pre sfx i ∧
    (make_new_file_name pre sfx file_count i fsys).2.1 = i + 1 ∧
    (generate_file_name pre sfx (i - file_count) ∈ fsys →
      (make_new_file_name pre sfx file_count i fsys).2.2 =
        fsys.filter (fun q => q != generate_file_name pre sfx (i - file_count))) ∧
    (generate_file_name pre sfx (i - file_count) ∉ fsys →
      (make_new_file_name pre sfx file_count i fsys).2.2 = fsys) ∧
    generate_file_name pre sfx (i - file_count) ∉
      (make_new_file_name pre sfx file_count i fsys).2.2 := by
  refine ⟨rfl, rfl, ?_, ?_, target_not_mem_after_evict pre sfx file_count i fsys⟩
  · intro _
    exact make_new_file_name_fsys pre sfx file_count i fsys
  · intro h
    rw [make_new_file_name_fsys, filter_bne_eq_self _ _ h]

theorem C8_witness :
    generate_file_name "temp" "log" (5 - 2) ∈ ["temp_003.log", "keep_000.log"] ∧
    (make_new_file_name "temp" "log" 2 5 ["temp_003.log", "keep_000.log"]).1 =
      generate_file_name "temp" "log" 5 ∧
    (make_new_file_name "temp" "log" 2 5 ["temp_003.log", "keep_000.log"]).2.1 =
      5 + 1 ∧
    (make_new_file_name "temp" "log" 2 5 ["temp_003.log", "keep_000.log"]).2.2 =
      (["temp_003.log", "keep_000.log"] : List String).filter
        (fun q => q != generate_file_name "temp" "log" (5 - 2)) :=
  ⟨by decide,
   (C8_retention_eviction "temp" "log" 2 5 ["temp_003.log", "keep_000.log"]).1,
   (C8_retention_eviction "temp" "log" 2 5 ["temp_003.log", "keep_000.log"]).2.1,
   (C8_retention_eviction "temp" "log" 2 5
      ["temp_003.log", "keep_000.log"]).2.2.1 (by decide)⟩

/-- Claim C9 concerns a code bug: line 37 falls back to
`10 * 1024 * 1028` on a size-string parse failure — 10526720 bytes,
not the 10 MiB (10 * 1024 * 1024 = 10485760) the `10m` default and the
claim intend. -/
theorem C9_fallback_size :
    resolve_file_size none = file_size_fallback ∧
    file_size_fallback = 10526720 ∧
    resolve_file_size none ≠ 10 * 1024 * 1024 := by
  decide

/-- Claim C10: eviction runs on every creation, the first included; for
`i < file_count` the target index `i - file_count` is negative and its
path carries the minus sign inside the 3-wide zero padding (index 0
with file count 10 targets `temp_-10.log`; `-1` formats as `-01`), and
a file by that name is removed when present. -/
theorem C10_negative_index_eviction (pre sfx : String) (file_count i : Int)
    (fsys : List String) (h : i < file_count) :
    i - file_count < 0 ∧
    generate_file_name pre sfx (i - file_count) ∉
      (make_new_file_name pre sfx file_count i fsys).2.2 ∧
    fmt03 (-1) = "-01" ∧
    generate_file_name "temp" "log" ((0 : Int) - 10) = "temp_-10.log" ∧
    (make_new_file_name "temp" "log" 10 0 ["temp_-10.log", "keep_000.log"]).2.2 =
      ["keep_000.log"] := by
  refine ⟨by omega, target_not_mem_after_evict pre sfx file_count i fsys,
    by decide, by decide, by decide⟩

theorem C10_witness :
    ((0 : Int) < 10) ∧
    ((0 : Int) - 10 < 0 ∧
    generate_file_name "temp" "log" ((0 : Int) - 10) ∉
      (make_new_file_name "temp" "log" 10 0 ["temp_-10.log"]).2.2 ∧
    fmt03 (-1) = "-01" ∧
    generate_file_name "temp" "log" ((0 : Int) - 10) = "temp_-10.log" ∧
    (make_new_file_name "temp" "log" 10 0 ["temp_-10.log", "keep_000.log"]).2.2 =
      ["keep_000.log"]) :=
  ⟨by decide,
   C10_negative_index_eviction "temp" "log" 10 0 ["temp_-10.log"] (by decide)⟩

end RotatePuts
